import Mathlib

/-!
Shallow embedding of the order-lifecycle and reward-attribution engine of
`RITEnvironment` (src/market.py).  Exchange interactions are modelled as
oracle inputs: each gateway response is an `Option` value, `none` standing
for an unreachable exchange / non-ok HTTP response.  Python exceptions
raised by the environment's own code (TypeError on arithmetic with `None`,
ZeroDivisionError) are modelled with `Except Unit`.  Prices and quantities
are rationals.
-/

/-- One entry of the trade tape (`securities/tas` response). -/
structure Trade where
  tick : Int
  price : ℚ
  quantity : ℚ
deriving DecidableEq

/-- One row of the order-history ledger (the `OH_COLS` record). -/
structure Order where
  order_id : Int
  i_placed : Int
  i_filled : Int
  i_cancelled : Int
  price : ℚ
  quantity : ℚ
  filled : ℚ
  vwap : Option ℚ
  active : Bool
deriving DecidableEq

/-- The reward-signal configuration dictionary (`method`, `collection`). -/
structure RewardSignal where
  method : String
  collection : String
deriving DecidableEq

/-- One open order as reported by the `orders?status=OPEN` endpoint. -/
structure PendingOrder where
  trader_id : String
  quantity : ℚ
  quantity_filled : ℚ
deriving DecidableEq

/-- Fields of a successful `POST orders` response used by `_post_order`. -/
structure PostResp where
  status : String
  order_id : Int
  quantity_filled : ℚ
  vwap : Option ℚ
  tick : Int
deriving DecidableEq

/-- The mutable trader state carried by `RITEnvironment`. -/
structure EnvState where
  status : String
  time : Int
  start_time : Int
  end_time : Int
  inventory : ℚ
  direction : ℚ
  position : Option ℚ
  cost : Option ℚ
  vwap_m : Option ℚ
  pending : ℚ
  trader_id : String
  order_history : List Order
  delayed_reward : ℚ
  reward_signal : RewardSignal
deriving DecidableEq

/-- `_get_tick_status`: on a non-ok response returns the sentinel
`("PAUSED", 0, 300)`. -/
def get_tick_status (resp : Option (String × Int × Int)) : String × Int × Int :=
  match resp with
  | some r => r
  | none => (("PAUSED"), 0, 300)

/-- `_get_position`: on success returns `(abs position, vwap cost)`, on a
non-ok response the sentinel `(None, None)`. -/
def get_position (resp : Option (ℚ × Option ℚ)) : Option ℚ × Option ℚ :=
  match resp with
  | some pc => (some |pc.1|, pc.2)
  | none => (none, none)

/-- `_get_order`: on success returns the order's
`(quantity_filled, vwap, status)`, on a non-ok response `(None, None, None)`. -/
def get_order (resp : Option (ℚ × Option ℚ × String)) :
    Option ℚ × Option ℚ × Option String :=
  match resp with
  | some fvs => (some fvs.1, fvs.2.1, some fvs.2.2)
  | none => (none, none, none)

/-- `_get_pending`: outstanding unfilled volume over this trader's open
orders; `0` on a non-ok response or an empty order list. -/
def get_pending (tid : String) (resp : Option (List PendingOrder)) : ℚ :=
  match resp with
  | none => 0
  | some [] => 0
  | some os =>
    (((os.filter (fun o => o.trader_id == tid)).map
      (fun o => o.quantity - o.quantity_filled))).sum

/-- `_post_order`: on a non-ok response the failure sentinel
`status = "failed"` with `-1` numeric fields. -/
def post_order (resp : Option PostResp) : PostResp :=
  match resp with
  | some d => d
  | none =>
    { status := ("failed")
      order_id := -1
      quantity_filled := -1
      vwap := some (-1)
      tick := -1 }

/-- `_calc_vwap`: filters the trade tape to ticks at or after `start_time`
and returns `Σ price*quantity / Σ quantity`.  Returns `None` when the raw
tape is empty (the `len(resp.json()) == 0` check) or the response is not
ok; the ZeroDivisionError guard yields `0` when the filtered quantity sums
to zero. -/
def calc_vwap (start_time : Int) (resp : Option (List Trade)) : Option ℚ :=
  match resp with
  | none => none
  | some tape =>
    let filtered := tape.filter (fun t => start_time ≤ t.tick)
    let quantity := (filtered.map (fun t => t.quantity)).sum
    let num := (filtered.map (fun t => t.price * t.quantity)).sum
    if tape = [] then none
    else if quantity = 0 then some 0
    else some (num / quantity)

/-- `_calc_reward`: the reward policy.  `vwap_e = none` models a `None`
execution price; the market VWAP is recomputed from the tape oracle on
every call, exactly as the source re-invokes `_calc_vwap`.  Branches that
subtract or multiply a `None` market VWAP model Python's TypeError as
`Except.error`. -/
def calc_reward (sig : RewardSignal) (direction : ℚ) (start_time : Int)
    (tape : Option (List Trade)) (quantity : ℚ) (vwap_e : Option ℚ)
    (portion : ℚ) (done : Bool) : Except Unit ℚ :=
  let vwap_m := calc_vwap start_time tape
  match vwap_e with
  | none => Except.ok 0
  | some ve =>
    if sig.collection = ("terminal") then
      if done then
        match vwap_m with
        | none => Except.error ()
        | some vm => Except.ok (quantity * (ve - vm) * direction)
      else Except.ok 0
    else if sig.method = ("VWAP_PNL") then
      if done then
        match vwap_m with
        | none => Except.error ()
        | some vm => Except.ok (quantity * vm * (-direction))
      else Except.ok (quantity * ve * direction)
    else if sig.method = ("VWAP_TARGET") then
      if done then Except.ok 0
      else
        match vwap_m with
        | none => Except.error ()
        | some vm => Except.ok ((ve - vm) * direction * portion)
    else Except.ok 0

/-- `_delayed_helper`: reconcile one active ledger entry against the
exchange's view `resp` of that order.  Returns the updated entry together
with the reward contribution added to `delayed_reward`.  A `None` reported
fill (unreachable exchange) or an unchanged fill leaves the entry
untouched with zero contribution.  A zero `quantity` models the
ZeroDivisionError computing `portion`. -/
def delayed_helper (sig : RewardSignal) (direction : ℚ) (start_time : Int)
    (tape : Option (List Trade)) (time : Int)
    (resp : Option (ℚ × Option ℚ × String)) (o : Order) :
    Except Unit (Order × ℚ) :=
  match get_order resp with
  | (some filled, vwap, some status) =>
    if filled ≠ o.filled then
      if o.quantity = 0 then Except.error ()
      else
        match calc_reward sig direction start_time tape |filled - o.filled|
            vwap (|filled - o.filled| / o.quantity) false with
        | Except.error e => Except.error e
        | Except.ok r =>
          Except.ok ({ o with
            i_filled := time
            filled := filled
            vwap := vwap
            active := status == ("OPEN") }, r)
    else Except.ok (o, 0)
  | _ => Except.ok (o, 0)

/-- The scan of `_delayed_fill` over the ledger: every entry with
`active = true` is reconciled through `delayed_helper` (polling the
exchange by `order_id`), inactive entries are skipped; returns the updated
ledger and the summed reward contribution. -/
def delayed_fill_orders (sig : RewardSignal) (direction : ℚ)
    (start_time : Int) (tape : Option (List Trade)) (time : Int)
    (poll : Int → Option (ℚ × Option ℚ × String)) :
    List Order → Except Unit (List Order × ℚ)
  | [] => Except.ok ([], 0)
  | o :: os =>
    if o.active then
      match delayed_helper sig direction start_time tape time
          (poll o.order_id) o with
      | Except.error e => Except.error e
      | Except.ok or2 =>
        match delayed_fill_orders sig direction start_time tape time poll os with
        | Except.error e => Except.error e
        | Except.ok osr => Except.ok (or2.1 :: osr.1, or2.2 + osr.2)
    else
      match delayed_fill_orders sig direction start_time tape time poll os with
      | Except.error e => Except.error e
      | Except.ok osr => Except.ok (o :: osr.1, osr.2)

/-- `_delayed_fill`: reconcile the ledger, accumulate into
`delayed_reward`, then re-fetch position and cost. -/
def delayed_fill (st : EnvState) (tape : Option (List Trade))
    (poll : Int → Option (ℚ × Option ℚ × String))
    (posResp : Option (ℚ × Option ℚ)) : Except Unit EnvState :=
  match delayed_fill_orders st.reward_signal st.direction st.start_time
      tape st.time poll st.order_history with
  | Except.error e => Except.error e
  | Except.ok hr =>
    let pc := get_position posResp
    Except.ok { st with
      order_history := hr.1
      delayed_reward := st.delayed_reward + hr.2
      position := pc.1
      cost := pc.2 }

/-- The two ledger updates of `_cancel_orders`: stamp `i_cancelled` with
the current tick on the rows that are active, then clear `active` on every
row. -/
def cancel_history (time : Int) (hist : List Order) : List Order :=
  ((hist.map (fun o => if o.active then { o with i_cancelled := time } else o)).map
    (fun o => { o with active := false }))

/-- `_cancel_orders`: post the cancel-all command (a gateway call, tracked
in the dispatch trace), refresh `pending`, and update the ledger. -/
def cancel_orders (st : EnvState) (pendingResp : Option (List PendingOrder)) :
    EnvState :=
  { st with
    pending := get_pending st.trader_id pendingResp
    order_history := cancel_history st.time st.order_history }

/-- One gateway interaction issued by `_execute_trade`, in call order. -/
inductive GCall
  | cancelAll
  | fetchPending
  | fetchPosition
  | submit (otype : String) (quantity : ℚ) (price : ℚ) (side : String)
deriving DecidableEq

/-- Oracle for the gateway calls `_execute_trade` may make. -/
structure TradeOracle where
  posResp : Option (ℚ × Option ℚ)
  postResp : Option PostResp
  pendingResp : Option (List PendingOrder)

/-- The tail of `_execute_trade` after a submission: on
`status ∈ {failed, cancelled}` no ledger entry is appended and the reward
is 0; otherwise the order is recorded and the immediate reward is
`_calc_reward(price*quantity, vwap_e, portion=1, done=False)`. -/
def finish_trade (st : EnvState) (price quantity : ℚ) (d : PostResp)
    (tape : Option (List Trade)) : Except Unit (EnvState × ℚ) :=
  if d.status = ("failed") ∨ d.status = ("cancelled") then Except.ok (st, 0)
  else
    let entry : Order :=
      { order_id := d.order_id
        i_placed := d.tick
        i_filled := if 0 < d.quantity_filled then d.tick else -1
        i_cancelled := -1
        price := price
        quantity := quantity
        filled := d.quantity_filled
        vwap := d.vwap
        active := d.status == ("OPEN") }
    match calc_reward st.reward_signal st.direction st.start_time tape
        (price * quantity) d.vwap 1 false with
    | Except.error e => Except.error e
    | Except.ok r =>
      Except.ok ({ st with order_history := st.order_history ++ [entry] }, r)

/-- `_execute_trade`: dispatch one agent action
`(trade_type, price, quantity)`.  A zero quantity is coerced to hold.
Returns the ordered trace of gateway interactions together with the
updated state and immediate reward (or the Python exception).  The MARKET
branch cancels all open orders, re-fetches the position, and sizes the
submission as `|inventory - position|`; a `None` position sentinel there
models the TypeError raised by that subtraction. -/
def execute_trade (st : EnvState) (action : Int × ℚ × ℚ)
    (tape : Option (List Trade)) (orc : TradeOracle) :
    List GCall × Except Unit (EnvState × ℚ) :=
  let price := action.2.1
  let quantity0 := action.2.2
  let trade_type := if quantity0 = 0 then 2 else action.1
  if trade_type = 0 then
    let d := post_order orc.postResp
    let side := if st.direction = 1 then ("SELL") else ("BUY")
    ([GCall.submit ("LIMIT") quantity0 price side],
      finish_trade st price quantity0 d tape)
  else if trade_type = 1 then
    let st1 := cancel_orders st orc.pendingResp
    let pc := get_position orc.posResp
    let st2 := { st1 with position := pc.1, cost := pc.2 }
    match pc.1 with
    | none =>
      ([GCall.cancelAll, GCall.fetchPending, GCall.fetchPosition],
        Except.error ())
    | some p =>
      let q := |st2.inventory - p|
      let d := post_order orc.postResp
      let side := if st.direction = 1 then ("SELL") else ("BUY")
      ([GCall.cancelAll, GCall.fetchPending, GCall.fetchPosition,
        GCall.submit ("MARKET") q 0 side],
        finish_trade st2 price q d tape)
  else if trade_type = 2 then ([], Except.ok (st, 0))
  else
    ([GCall.cancelAll, GCall.fetchPending],
      Except.ok (cancel_orders st orc.pendingResp, 0))

/-- The `STATE_COLS` summary half of an observation. -/
structure StateInfo where
  time : Int
  start_time : Int
  end_time : Int
  inventory : ℚ
  position : Option ℚ
  pending : ℚ
  cost : Option ℚ
  vwap : Option ℚ
deriving DecidableEq

/-- `_get_state`: the trader-state summary.  The order-book half of the
observation is a pure passthrough of the book endpoint with no
state-machine logic and is outside the ledger/reward core modelled here. -/
def get_state (st : EnvState) (tape : Option (List Trade)) : StateInfo :=
  { time := st.time
    start_time := st.start_time
    end_time := st.end_time
    inventory := st.inventory
    position := st.position
    pending := st.pending
    cost := st.cost
    vwap := calc_vwap st.start_time tape }

/-- Oracle for the gateway responses one `step` observes.  The trade tape
is fetched repeatedly inside a step; `tape` models an exchange whose tape
is stable across the single step. -/
structure StepOracle where
  tickResp : Option (String × Int × Int)
  poll : Int → Option (ℚ × Option ℚ × String)
  posRespFill : Option (ℚ × Option ℚ)
  trade : TradeOracle
  posRespAfter : Option (ℚ × Option ℚ)
  pendingResp : Option (List PendingOrder)
  tape : Option (List Trade)

/-- Lines 112-126 of `step`: refresh tick/status, reconcile delayed fills,
consume `delayed_reward`, dispatch the action, refresh
position/cost/vwap/pending.  Returns the updated state and the
pre-terminal reward. -/
def step_pre (st : EnvState) (action : Int × ℚ × ℚ) (orc : StepOracle) :
    Except Unit (EnvState × ℚ) :=
  let ts := get_tick_status orc.tickResp
  let st0 := { st with status := ts.1, time := ts.2.1 }
  match delayed_fill st0 orc.tape orc.poll orc.posRespFill with
  | Except.error e => Except.error e
  | Except.ok st1 =>
    let reward0 := st1.delayed_reward
    let st2 := { st1 with delayed_reward := 0 }
    match (execute_trade st2 action orc.tape orc.trade).2 with
    | Except.error e => Except.error e
    | Except.ok sr =>
      let pc := get_position orc.posRespAfter
      let st4 := { sr.1 with
        position := pc.1
        cost := pc.2
        vwap_m := calc_vwap sr.1.start_time orc.tape
        pending := get_pending sr.1.trader_id orc.pendingResp }
      Except.ok (st4, reward0 + sr.2)

/-- The info string built on the done branch of `step`. -/
def done_info (st : EnvState) : String :=
  ("trading is done. timeout: ") ++
    (if st.time = st.end_time then ("True") else ("False")) ++
    (" inventory met: ") ++
    (if st.position = some st.inventory then ("True") else ("False"))

/-- `step`: after the pre-phase, assemble the observation; when the
refreshed tick has reached `end_time`, add the terminal reward term
`_calc_reward(inventory, cost, portion=1, done=True)` and report done. -/
def step (st : EnvState) (action : Int × ℚ × ℚ) (orc : StepOracle) :
    Except Unit (EnvState × StateInfo × ℚ × Bool × String) :=
  match step_pre st action orc with
  | Except.error e => Except.error e
  | Except.ok sr =>
    let st4 := sr.1
    let obs := get_state st4 orc.tape
    if st4.end_time ≤ st4.time then
      match calc_reward st4.reward_signal st4.direction st4.start_time
          orc.tape st4.inventory st4.cost 1 true with
      | Except.error e => Except.error e
      | Except.ok t =>
        Except.ok (st4, obs, sr.2 + t, true, done_info st4)
    else Except.ok (st4, obs, sr.2, false, ("trading continues."))

/-- The reward component of a `step` result, `none` when `step` raised. -/
def step_reward :
    Except Unit (EnvState × StateInfo × ℚ × Bool × String) → Option ℚ
  | Except.ok r => some r.2.2.1
  | Except.error _ => none

/-- The done flag of a `step` result, `none` when `step` raised. -/
def step_done :
    Except Unit (EnvState × StateInfo × ℚ × Bool × String) → Option Bool
  | Except.ok r => some r.2.2.2.1
  | Except.error _ => none

/-- The condition of the busy-wait loop in `reset`: keep polling while the
exchange is ACTIVE but more than one tick away from `start_time`, or
STOPPED. -/
def sync_cond (start_time : Int) (status : String) (time : Int) : Bool :=
  (status == ("ACTIVE") && decide (1 < |time - start_time|)) ||
    status == ("STOPPED")

/-- The busy-wait loop of `reset`, driven by a finite list of tick-status
responses; `none` means the loop had not exited when the supplied
responses ran out. -/
def sync_loop (start_time : Int) (status : String) (time : Int) :
    List (Option (String × Int × Int)) → Option (String × Int)
  | [] => if sync_cond start_time status time then none else some (status, time)
  | r :: rs =>
    if sync_cond start_time status time then
      let ts := get_tick_status r
      sync_loop start_time ts.1 ts.2.1 rs
    else some (status, time)

/-- Oracle for the gateway responses `reset` observes. -/
structure ResetOracle where
  firstTick : Option (String × Int × Int)
  ticks : List (Option (String × Int × Int))
  posResp : Option (ℚ × Option ℚ)
  pendingResp : Option (List PendingOrder)
  tape : Option (List Trade)

/-- `reset`: clear the ledger and `delayed_reward`, busy-wait for the
simulator, then re-fetch position/cost, market VWAP and pending volume and
return the observation.  `none` models the loop still waiting when the
supplied responses ran out. -/
def reset (st : EnvState) (orc : ResetOracle) :
    Option (EnvState × StateInfo) :=
  let st0 := { st with order_history := [], delayed_reward := 0 }
  let ts := get_tick_status orc.firstTick
  match sync_loop st0.start_time ts.1 ts.2.1 orc.ticks with
  | none => none
  | some s =>
    let pc := get_position orc.posResp
    let st1 := { st0 with
      status := s.1
      time := s.2
      position := pc.1
      cost := pc.2
      vwap_m := calc_vwap st0.start_time orc.tape
      pending := get_pending st0.trader_id orc.pendingResp }
    some (st1, get_state st1 orc.tape)

/-- Repeated reconciliation of a single ledger entry across several steps:
each pass polls the exchange (tick, response pair) and applies
`_delayed_helper` when the entry is still active. -/
def run_reconcile (sig : RewardSignal) (direction : ℚ) (start_time : Int)
    (tape : Option (List Trade)) :
    Order → List (Int × Option (ℚ × Option ℚ × String)) → Except Unit Order
  | o, [] => Except.ok o
  | o, p :: ps =>
    if o.active then
      match delayed_helper sig direction start_time tape p.1 p.2 o with
      | Except.error e => Except.error e
      | Except.ok or2 => run_reconcile sig direction start_time tape or2.1 ps
    else run_reconcile sig direction start_time tape o ps

/-- The default reward-signal configuration of the class
(`harvested` collection, `VWAP_TARGET` method). -/
def sig_ht : RewardSignal := ⟨("VWAP_TARGET"), ("harvested")⟩

/-- The spec's reference reward for `collection = terminal`:
`quantity * (execution_price - market_vwap) * direction` at termination,
0 otherwise. -/
def reward_ref_terminal_collection (q ve vm d : ℚ) (done : Bool) : ℚ :=
  if done then q * (ve - vm) * d else 0

/-- The spec's reference reward for `harvested` collection with method
`VWAP_PNL`: `quantity * market_vwap * -direction` at termination,
`quantity * execution_price * direction` mid-episode. -/
def reward_ref_vwap_pnl (q ve vm d : ℚ) (done : Bool) : ℚ :=
  if done then q * vm * (-d) else q * ve * d

/-- C2 counterexample: a raw trade tape holding one trade strictly before
`start_time = 5`.  The filtered tape is empty, so the claim requires the
VWAP to be null, but `_calc_vwap` tests emptiness of the *raw* tape and
returns `0` through the division guard. -/
theorem calc_vwap_zero_on_empty_filtered_window :
    calc_vwap 5 (some [⟨0, 5, 10⟩]) = some 0 ∧
      ([(⟨0, 5, 10⟩ : Trade)].filter (fun t => (5 : Int) ≤ t.tick)) = [] ∧
      some (0 : ℚ) ≠ (none : Option ℚ) :=
  ⟨by decide, by decide, by decide⟩

/-- C2 amended: `_calc_vwap` returns null exactly when the raw tape is
empty (also on an unreachable gateway); whenever the raw tape is non-empty
but the quantities of the trades at or after `start_time` sum to zero —
in particular when no trade falls in the window — it returns `0`;
otherwise it returns `sum(price*quantity)/sum(quantity)` over the filtered
tape.  `null` and `0` remain distinguishable values. -/
theorem calc_vwap_null_iff_raw_tape_empty (start : Int) (tape : List Trade) :
    (calc_vwap start (some tape) = none ↔ tape = []) ∧
    calc_vwap start none = none ∧
    (tape ≠ [] →
      ((tape.filter (fun t => start ≤ t.tick)).map (fun t => t.quantity)).sum = 0 →
      calc_vwap start (some tape) = some 0) ∧
    (tape ≠ [] →
      ((tape.filter (fun t => start ≤ t.tick)).map (fun t => t.quantity)).sum ≠ 0 →
      calc_vwap start (some tape) =
        some (((tape.filter (fun t => start ≤ t.tick)).map
            (fun t => t.price * t.quantity)).sum /
          ((tape.filter (fun t => start ≤ t.tick)).map
            (fun t => t.quantity)).sum)) := by
  refine ⟨⟨fun h => ?_, fun he => by simp [calc_vwap, he]⟩, rfl,
    fun he hq => by simp [calc_vwap, he, hq], fun he hq => by simp [calc_vwap, he, hq]⟩
  by_cases he : tape = []
  · exact he
  · exfalso
    by_cases hq : ((tape.filter (fun t => start ≤ t.tick)).map
        (fun t => t.quantity)).sum = 0
    · simp [calc_vwap, he, hq] at h
    · simp [calc_vwap, he, hq] at h

/-- C2 witness: a window with one trade of quantity 2 at price 9 yields
VWAP 9 through the non-degenerate branch of the amended statement. -/
theorem calc_vwap_null_iff_raw_tape_empty_witness :
    calc_vwap 0 (some [⟨0, 9, 2⟩]) = some 9 := by
  have h := (calc_vwap_null_iff_raw_tape_empty 0 [⟨0, 9, 2⟩]).2.2.2
    (by decide) (by norm_num)
  rw [h]
  norm_num

/-- C5: the reward policy agrees with the spec's reference definition on
the configurations the spec enumerates: for `collection = terminal` (any
method) the reward is `quantity*(execution_price - market_vwap)*direction`
exactly at termination and 0 otherwise; for `harvested`/`VWAP_PNL` it is
`quantity*market_vwap*-direction` at termination and
`quantity*execution_price*direction` mid-episode; and for every
configuration a `None` execution price yields 0. -/
theorem calc_reward_matches_reference :
    (∀ (m : String) (d : ℚ) (start : Int) (tape : Option (List Trade))
        (q ve p : ℚ) (done : Bool) (vm : ℚ), calc_vwap start tape = some vm →
        calc_reward ⟨m, ("terminal")⟩ d start tape q (some ve) p done =
          Except.ok (reward_ref_terminal_collection q ve vm d done)) ∧
    (∀ (d : ℚ) (start : Int) (tape : Option (List Trade)) (q ve p : ℚ)
        (done : Bool) (vm : ℚ), calc_vwap start tape = some vm →
        calc_reward ⟨("VWAP_PNL"), ("harvested")⟩ d start tape q (some ve)
          p done = Except.ok (reward_ref_vwap_pnl q ve vm d done)) ∧
    (∀ (sig : RewardSignal) (d : ℚ) (start : Int) (tape : Option (List Trade))
        (q p : ℚ) (done : Bool),
        calc_reward sig d start tape q none p done = Except.ok 0) := by
  refine ⟨?_, ?_, ?_⟩
  · intro m d start tape q ve p done vm hvm
    cases done <;>
      simp [calc_reward, reward_ref_terminal_collection, hvm]
  · intro d start tape q ve p done vm hvm
    cases done <;>
      simp +decide [calc_reward, reward_ref_vwap_pnl, hvm]
  · intro sig d start tape q p done
    simp [calc_reward]

/-- C5 witness: with market VWAP 2 from a one-trade tape, a terminal-mode
reward at execution price 3, quantity 5, direction 1 evaluates to 5. -/
theorem calc_reward_matches_reference_witness :
    calc_reward ⟨("X"), ("terminal")⟩ 1 0 (some [⟨0, 2, 1⟩]) 5 (some 3) 1 true =
      Except.ok 5 := by
  have hv : calc_vwap 0 (some [⟨0, 2, 1⟩]) = some 2 := by
    norm_num [calc_vwap]
  have h := calc_reward_matches_reference.1 ("X") 1 0 (some [⟨0, 2, 1⟩])
    5 3 1 true 2 hv
  rw [h]
  norm_num [reward_ref_terminal_collection]

/-- The active ledger entry of the C4 scenario: target quantity 100,
filled quantity 40. -/
def entry_c4 : Order :=
  { order_id := 1
    i_placed := 0
    i_filled := -1
    i_cancelled := -1
    price := 9
    quantity := 100
    filled := 40
    vwap := some 9
    active := true }

/-- The trader state of the C4 scenario: direction 1, default
`harvested`/`VWAP_TARGET` configuration, one active ledger entry. -/
def st_c4 (t : Int) : EnvState :=
  { status := ("ACTIVE")
    time := t
    start_time := 0
    end_time := 100
    inventory := 100
    direction := 1
    position := some 0
    cost := some 10
    vwap_m := some 9
    pending := 0
    trader_id := ("T")
    order_history := [entry_c4]
    delayed_reward := 0
    reward_signal := sig_ht }

/-- C4: with the exchange now reporting `filled = 70`,
`running_vwap = 9.5` and market VWAP 9, one reconciliation pass adds
exactly `(9.5 - 9) * 1 * (30/100) = 0.15 = 3/20` to the deferred-reward
accumulator and rewrites the entry to `filled = 70`,
`running_vwap = 9.5`, `filled_at = current tick`,
`active = (status == "OPEN")`. -/
theorem reconcile_scenario_vwap_target (status : String) (t : Int) :
    delayed_fill (st_c4 t) (some [⟨0, 9, 1⟩])
      (fun _ => some (70, some (19/2), status)) (some (0, some 10)) =
    Except.ok { st_c4 t with
      order_history := [{ entry_c4 with
        i_filled := t
        filled := 70
        vwap := some (19/2)
        active := status == ("OPEN") }]
      delayed_reward := 3/20
      position := some 0
      cost := some 10 } := by
  simp +decide [delayed_fill, delayed_fill_orders, delayed_helper, get_order,
    calc_reward, calc_vwap, get_position, st_c4, entry_c4, sig_ht]
  norm_num

/-- C10: after `_cancel_orders` rewrites the ledger, every entry is
inactive; `i_cancelled` is stamped with the current tick exactly on the
entries that were active beforehand; and a subsequent reconciliation pass
over the resulting ledger polls no entry — it returns the ledger unchanged
with zero deferred reward. -/
theorem cancel_all_deactivates (t : Int) (hist : List Order)
    (sig : RewardSignal) (d : ℚ) (start : Int) (tape : Option (List Trade))
    (time2 : Int) (poll : Int → Option (ℚ × Option ℚ × String)) :
    (∀ o ∈ cancel_history t hist, o.active = false) ∧
    cancel_history t hist = hist.map (fun o =>
      { o with i_cancelled := if o.active then t else o.i_cancelled, active := false }) ∧
    delayed_fill_orders sig d start tape time2 poll (cancel_history t hist) =
      Except.ok (cancel_history t hist, 0) := by
  have hmap : cancel_history t hist = hist.map (fun o =>
      { o with i_cancelled := if o.active then t else o.i_cancelled, active := false }) := by
    unfold cancel_history
    rw [List.map_map]
    refine List.map_congr_left ?_
    intro o _
    by_cases h : o.active <;> simp [h, Function.comp]
  have hact : ∀ o ∈ cancel_history t hist, o.active = false := by
    intro o ho
    rw [hmap] at ho
    simp only [List.mem_map] at ho
    obtain ⟨x, _, hx⟩ := ho
    rw [← hx]
  have hall : ∀ (l : List Order), (∀ o ∈ l, o.active = false) →
      delayed_fill_orders sig d start tape time2 poll l = Except.ok (l, 0) := by
    intro l
    induction l with
    | nil => intro _; rfl
    | cons o os ih =>
      intro h
      have ho := h o (by simp)
      simp [delayed_fill_orders, ho, ih (fun x hx => h x (by simp [hx]))]
  exact ⟨hact, hmap, hall _ hact⟩

/-- A concrete active ledger entry used in witnesses. -/
def o_a : Order := ⟨1, 0, -1, -1, 5, 10, 0, none, true⟩

/-- A concrete inactive ledger entry used in witnesses. -/
def o_b : Order := ⟨2, 0, -1, -1, 6, 20, 5, some 6, false⟩

/-- C10 witness: on the two-entry ledger `[o_a (active), o_b (inactive)]`
the deactivation property holds of the first rewritten entry. -/
theorem cancel_all_deactivates_witness :
    ({ o_a with i_cancelled := 3, active := false } : Order).active = false := by
  have h := (cancel_all_deactivates 3 [o_a, o_b] sig_ht 1 0 none 4
    (fun _ => none)).1
  refine h _ ?_
  simp [cancel_history, o_a, o_b]

/-- C8: dispatching a MARKET action with nonzero quantity performs, in
this order: the cancel-all command (with its pending refresh), a re-fetch
of the position, and a market-order submission sized exactly
`|inventory - position|`, sell side when `direction == 1` and buy
otherwise. -/
theorem market_dispatch_sequence (st : EnvState) (price q : ℚ)
    (tape : Option (List Trade)) (orc : TradeOracle) (p : ℚ) (c : Option ℚ)
    (hpos : orc.posResp = some (p, c)) (hq : q ≠ 0) :
    (execute_trade st (1, price, q) tape orc).1 =
      [GCall.cancelAll, GCall.fetchPending, GCall.fetchPosition,
        GCall.submit ("MARKET") (abs (st.inventory - abs p)) 0
          (if st.direction = 1 then ("SELL") else ("BUY"))] := by
  simp [execute_trade, get_position, cancel_orders, hpos, hq]

/-- The trader state of the C8 scenario: inventory 1000, direction 1. -/
def st_c8 : EnvState :=
  { status := ("ACTIVE")
    time := 5
    start_time := 0
    end_time := 100
    inventory := 1000
    direction := 1
    position := some 600
    cost := some 10
    vwap_m := some 9
    pending := 0
    trader_id := ("T")
    order_history := []
    delayed_reward := 0
    reward_signal := sig_ht }

/-- C8 witness: with `inventory = 1000` and the re-fetched position 600,
direction 1, the dispatched sequence ends in a sell market order of
quantity 400. -/
theorem market_dispatch_sequence_witness :
    (execute_trade st_c8 (1, 0, 10) none
        ⟨some (600, some 9), none, none⟩).1 =
      [GCall.cancelAll, GCall.fetchPending, GCall.fetchPosition,
        GCall.submit ("MARKET") 400 0 ("SELL")] := by
  have h := market_dispatch_sequence st_c8 0 10 none
    ⟨some (600, some 9), none, none⟩ 600 (some 9) rfl (by norm_num)
  rw [h]
  norm_num [st_c8]

/-- C7 counterexample: a MARKET dispatch whose submission fails (the
exchange is unreachable, mapping to status `failed`).  The reward is 0 and
no entry is appended, but the Order Ledger is *not* left completely
unchanged: the cancel-all phase that precedes the submission has already
deactivated the pre-existing active entry and stamped its `i_cancelled`. -/
theorem market_failed_submission_mutates_ledger :
    (execute_trade (st_c4 0) (1, 0, 5) (some [⟨0, 9, 1⟩])
        ⟨some (0, some 10), none, none⟩).2 =
      Except.ok ({ st_c4 0 with
        order_history := [{ entry_c4 with i_cancelled := 0, active := false }]
        position := some 0
        cost := some 10 }, 0) ∧
    [({ entry_c4 with i_cancelled := 0, active := false } : Order)] ≠
      (st_c4 0).order_history ∧
    (post_order none).status = ("failed") := by
  refine ⟨?_, by simp [st_c4, entry_c4], rfl⟩
  simp +decide [execute_trade, cancel_orders, cancel_history, get_pending,
    get_position, post_order, finish_trade, st_c4, entry_c4, sig_ht]

/-- C7 amended: a submission with resulting status in {failed, cancelled}
(unreachable exchange included, which maps to status `failed`) yields
reward 0 and never appends a ledger entry: a LIMIT dispatch leaves the
state completely unchanged, while a MARKET dispatch leaves the ledger
exactly as the preceding cancel-all phase wrote it — same length, no new
entry. -/
theorem failed_submission_no_append :
    (∀ (st : EnvState) (price q : ℚ) (tape : Option (List Trade))
        (orc : TradeOracle) (st' : EnvState) (r : ℚ) (calls : List GCall),
        execute_trade st (0, price, q) tape orc = (calls, Except.ok (st', r)) →
        ((post_order orc.postResp).status = ("failed") ∨
          (post_order orc.postResp).status = ("cancelled")) →
        q ≠ 0 → r = 0 ∧ st' = st) ∧
    (∀ (st : EnvState) (price q : ℚ) (tape : Option (List Trade))
        (orc : TradeOracle) (st' : EnvState) (r : ℚ) (calls : List GCall),
        execute_trade st (1, price, q) tape orc = (calls, Except.ok (st', r)) →
        ((post_order orc.postResp).status = ("failed") ∨
          (post_order orc.postResp).status = ("cancelled")) →
        q ≠ 0 →
        r = 0 ∧ st'.order_history = cancel_history st.time st.order_history ∧
          st'.order_history.length = st.order_history.length) ∧
    (post_order none).status = ("failed") := by
  have hlen : ∀ (t : Int) (h : List Order),
      (cancel_history t h).length = h.length := by
    intro t h
    simp [cancel_history]
  refine ⟨?_, ?_, rfl⟩
  · intro st price q tape orc st' r calls hexec hs hq
    rcases hs with hs | hs <;>
      simp +decide [execute_trade, finish_trade, hq, hs] at hexec <;>
      exact ⟨hexec.2.2.symm, hexec.2.1.symm⟩
  · intro st price q tape orc st' r calls hexec hs hq
    rcases hpos : orc.posResp with _ | pc
    · rcases hs with hs | hs <;>
        simp +decide [execute_trade, finish_trade, get_position, hq, hs,
          hpos] at hexec
    · rcases hs with hs | hs <;>
        simp +decide [execute_trade, finish_trade, get_position, cancel_orders,
          hq, hs, hpos] at hexec <;>
        rw [← hexec.2.1] <;>
        exact ⟨hexec.2.2.symm, rfl, hlen _ _⟩

/-- C7 witness: a failing LIMIT submission on the C4 state returns reward
0 and an unchanged state. -/
theorem failed_submission_no_append_witness :
    (0 : ℚ) = 0 ∧ st_c4 0 = st_c4 0 := by
  have hexec : execute_trade (st_c4 0) (0, 3, 5) none ⟨none, none, none⟩ =
      ([GCall.submit ("LIMIT") 5 3 (("SELL"))], Except.ok (st_c4 0, 0)) := by
    simp +decide [execute_trade, finish_trade, post_order, st_c4]
  exact failed_submission_no_append.1 (st_c4 0) 3 5 none ⟨none, none, none⟩
    (st_c4 0) 0 [GCall.submit ("LIMIT") 5 3 (("SELL"))] hexec
    (Or.inl rfl) (by norm_num)

/-- What one `_delayed_helper` pass can do to an entry: the target
quantity is never touched, and the new `filled` is either the old value
or exactly the exchange-reported value. -/
theorem delayed_helper_spec (sig : RewardSignal) (d : ℚ) (start : Int)
    (tape : Option (List Trade)) (t : Int)
    (resp : Option (ℚ × Option ℚ × String)) (o o2 : Order) (r : ℚ)
    (h : delayed_helper sig d start tape t resp o = Except.ok (o2, r)) :
    o2.quantity = o.quantity ∧
      (o2.filled = o.filled ∨ ∃ v s, resp = some (o2.filled, v, s)) := by
  rcases resp with _ | ⟨f, v, s⟩
  · simp [delayed_helper, get_order] at h
    rw [← h.1]
    exact ⟨rfl, Or.inl rfl⟩
  · by_cases hf : f = o.filled
    · simp [delayed_helper, get_order, hf] at h
      rw [← h.1]
      exact ⟨rfl, Or.inl rfl⟩
    · by_cases hq : o.quantity = 0
      · simp [delayed_helper, get_order, hf, hq] at h
      · rcases hcr : calc_reward sig d start tape (abs (f - o.filled)) v
            (abs (f - o.filled) / o.quantity) false with e | rr
        · simp [delayed_helper, get_order, hf, hq, hcr] at h
        · simp [delayed_helper, get_order, hf, hq, hcr] at h
          rw [← h.1]
          exact ⟨rfl, Or.inr ⟨v, s, rfl⟩⟩

/-- C6 counterexample: reconciliation of the entry
`{target_quantity = 100, filled_quantity = 40}` against an exchange poll
reporting `filled_quantity = 30` rewrites `filled` to 30 — a strict
decrease, so `filled_quantity` is not monotonically non-decreasing over
arbitrary reconciliation passes. -/
theorem reconcile_decreases_on_lower_report :
    delayed_helper sig_ht 1 0 (some [⟨0, 9, 1⟩]) 5
        (some (30, some 9, ("OPEN"))) entry_c4 =
      Except.ok ({ entry_c4 with i_filled := 5, filled := 30, vwap := some 9, active := true }, 0) ∧
    ({ entry_c4 with i_filled := 5, filled := 30, vwap := some 9, active := true } : Order).filled <
      entry_c4.filled := by
  constructor
  · simp +decide [delayed_helper, get_order, calc_reward, calc_vwap,
      entry_c4, sig_ht]
  · norm_num [entry_c4]

/-- C6 amended: an entry's `filled_quantity` after any sequence of
reconciliation passes is simply the exchange's latest report, so it is
monotonically non-decreasing and bounded by `target_quantity` exactly when
the exchange's successive reports are themselves non-decreasing (starting
from the stored fill) and bounded by `target_quantity`; the target
quantity itself is never modified. -/
theorem reconcile_monotone_of_monotone_reports (sig : RewardSignal) (d : ℚ)
    (start : Int) (tape : Option (List Trade)) :
    ∀ (ps : List (Int × Option (ℚ × Option ℚ × String))) (o o' : Order),
    o.filled ≤ o.quantity →
    (∀ f ∈ ps.filterMap (fun p => Option.map (fun z => z.1) p.2),
      o.filled ≤ f) →
    List.Pairwise (fun a b => a ≤ b)
      (ps.filterMap (fun p => Option.map (fun z => z.1) p.2)) →
    (∀ f ∈ ps.filterMap (fun p => Option.map (fun z => z.1) p.2),
      f ≤ o.quantity) →
    run_reconcile sig d start tape o ps = Except.ok o' →
    o.filled ≤ o'.filled ∧ o'.filled ≤ o.quantity ∧
      o'.quantity = o.quantity := by
  intro ps
  induction ps with
  | nil =>
    intro o o' hle _ _ _ hrun
    simp [run_reconcile] at hrun
    rw [← hrun]
    exact ⟨le_refl _, hle, rfl⟩
  | cons p ps ih =>
    intro o o' hle hlow hsort hbound hrun
    by_cases ha : o.active = true
    · rcases hdh : delayed_helper sig d start tape p.1 p.2 o with e | o2r
      · simp [run_reconcile, ha, hdh] at hrun
      · obtain ⟨hq2, hf2⟩ :=
          delayed_helper_spec sig d start tape p.1 p.2 o o2r.1 o2r.2 hdh
        simp only [run_reconcile, ha, if_true, hdh] at hrun
        rcases hp : p.2 with _ | z
        · simp only [List.filterMap_cons, hp] at hlow hsort hbound
          have hsame : o2r.1.filled = o.filled := by
            rcases hf2 with hsame | ⟨v, s, hrespeq⟩
            · exact hsame
            · rw [hp] at hrespeq
              exact absurd hrespeq (by simp)
          obtain ⟨h1, h2, h3⟩ := ih o2r.1 o'
            (by rw [hsame, hq2]; exact hle)
            (by intro f hf; rw [hsame]; exact hlow f hf)
            hsort
            (by intro f hf; rw [hq2]; exact hbound f hf)
            hrun
          rw [hsame] at h1
          rw [hq2] at h2 h3
          exact ⟨h1, h2, h3⟩
        · simp only [List.filterMap_cons, hp, Option.map_some'] at hlow hsort hbound
          obtain ⟨hhead, htail⟩ := List.pairwise_cons.mp hsort
          rcases hf2 with hsame | ⟨v, s, hrespeq⟩
          · obtain ⟨h1, h2, h3⟩ := ih o2r.1 o'
              (by rw [hsame, hq2]; exact hle)
              (by intro f hf; rw [hsame]; exact hlow f (List.mem_cons_of_mem _ hf))
              htail
              (by intro f hf; rw [hq2]; exact hbound f (List.mem_cons_of_mem _ hf))
              hrun
            rw [hsame] at h1
            rw [hq2] at h2 h3
            exact ⟨h1, h2, h3⟩
          · rw [hp] at hrespeq
            have hz1 : z.1 = o2r.1.filled := by
              have hz := Option.some.inj hrespeq
              exact congrArg Prod.fst hz
            rw [hz1] at hlow hhead hbound
            obtain ⟨h1, h2, h3⟩ := ih o2r.1 o'
              (by rw [hq2]; exact hbound o2r.1.filled (List.mem_cons_self _ _))
              hhead
              htail
              (by intro f hf; rw [hq2]; exact hbound f (List.mem_cons_of_mem _ hf))
              hrun
            rw [hq2] at h2 h3
            exact ⟨le_trans (hlow o2r.1.filled (List.mem_cons_self _ _)) h1, h2, h3⟩
    · rw [Bool.not_eq_true] at ha
      simp only [run_reconcile, ha, Bool.false_eq_true, if_false] at hrun
      rcases hp : p.2 with _ | z
      · simp only [List.filterMap_cons, hp] at hlow hsort hbound
        exact ih o o' hle hlow hsort hbound hrun
      · simp only [List.filterMap_cons, hp, Option.map_some'] at hlow hsort hbound
        obtain ⟨_, htail⟩ := List.pairwise_cons.mp hsort
        exact ih o o' hle
          (fun f hf => hlow f (List.mem_cons_of_mem _ hf))
          htail
          (fun f hf => hbound f (List.mem_cons_of_mem _ hf))
          hrun

/-- A two-pass poll sequence whose reported fills 50, 70 are monotone and
bounded by the target 100. -/
def ps_c6 : List (Int × Option (ℚ × Option ℚ × String)) :=
  [(1, some (50, some 9, ("OPEN"))), (2, some (70, some 9, ("OPEN")))]

/-- C6 witness: running the monotone report sequence from
`{target = 100, filled = 40}` keeps the fill between 40 and 100 and the
target at 100. -/
theorem reconcile_monotone_of_monotone_reports_witness :
    (40 : ℚ) ≤ 70 ∧ (70 : ℚ) ≤ 100 ∧ (100 : ℚ) = 100 := by
  have hrun : run_reconcile sig_ht 1 0 (some [⟨0, 9, 1⟩]) entry_c4 ps_c6 =
      Except.ok { entry_c4 with i_filled := 2, filled := 70, vwap := some 9, active := true } := by
    simp +decide [run_reconcile, delayed_helper, get_order, calc_reward,
      calc_vwap, entry_c4, sig_ht, ps_c6]
  have h := reconcile_monotone_of_monotone_reports sig_ht 1 0
    (some [⟨0, 9, 1⟩]) ps_c6 entry_c4
    { entry_c4 with i_filled := 2, filled := 70, vwap := some 9, active := true }
    (by norm_num [entry_c4])
    (by intro f hf; simp [ps_c6] at hf; rcases hf with rfl | rfl <;>
      norm_num [entry_c4])
    (by simp [ps_c6]; norm_num)
    (by intro f hf; simp [ps_c6] at hf; rcases hf with rfl | rfl <;>
      norm_num [entry_c4])
    hrun
  simpa [entry_c4] using h

/-- C9 helper: whenever the busy-wait loop of `reset` exits, the loop
condition is false at the returned status/tick. -/
theorem sync_loop_exit (start : Int) :
    ∀ (rs : List (Option (String × Int × Int))) (s : String) (t : Int)
      (st' : String × Int), sync_loop start s t rs = some st' →
      sync_cond start st'.1 st'.2 = false := by
  intro rs
  induction rs with
  | nil =>
    intro s t st' h
    by_cases hc : sync_cond start s t
    · simp [sync_loop, hc] at h
    · simp [sync_loop, hc] at h
      rw [← h]
      simpa using hc
  | cons r rs ih =>
    intro s t st' h
    by_cases hc : sync_cond start s t
    · simp only [sync_loop, hc, if_true] at h
      exact ih _ _ _ h
    · simp [sync_loop, hc] at h
      rw [← h]
      simpa using hc

/-- C9 counterexample: with the exchange unreachable, `_get_tick_status`
yields the sentinel `("PAUSED", 0)`; the loop condition is false for
status PAUSED, so `reset` returns immediately with status PAUSED — it
does not hold until the exchange reports ACTIVE within one tick of
`start_time`. -/
theorem reset_returns_on_paused :
    Option.map (fun r => r.1.status)
      (reset st_c8 ⟨none, [], some (0, some 10), none, some [⟨0, 9, 1⟩]⟩) =
      some ("PAUSED") ∧
    (("PAUSED") : String) ≠ ("ACTIVE") := by
  constructor
  · simp +decide [reset, get_tick_status, sync_loop, sync_cond, get_position,
      get_pending, calc_vwap, get_state, st_c8]
  · decide

/-- C9 amended: whenever `reset` returns, the busy-wait condition has
become false: the returned status is never STOPPED, and when it is ACTIVE
the returned tick is within one unit of `start_time`; any other status
(such as the PAUSED unreachable-gateway sentinel) also releases the
loop. -/
theorem reset_exits_only_off_loop_condition (st : EnvState)
    (orc : ResetOracle) (st' : EnvState) (obs : StateInfo)
    (h : reset st orc = some (st', obs)) :
    st'.status ≠ ("STOPPED") ∧
      (st'.status = ("ACTIVE") → |st'.time - st.start_time| ≤ 1) := by
  simp only [reset] at h
  split at h
  · exact absurd h (by simp)
  next s hsl =>
    have hcond := sync_loop_exit st.start_time orc.ticks _ _ _ hsl
    simp only [Option.some.injEq, Prod.mk.injEq] at h
    obtain ⟨h1, _⟩ := h
    rw [← h1]
    simp only [sync_cond, Bool.or_eq_false_iff, Bool.and_eq_false_iff,
      beq_eq_false_iff_ne, ne_eq, decide_eq_false_iff_not, not_lt] at hcond
    refine ⟨hcond.2, fun hA => ?_⟩
    rcases hcond.1 with hne | hle
    · exact absurd hA hne
    · exact hle

/-- The state `reset` produces in the C9 witness run. -/
def stw9 : EnvState :=
  { st_c4 0 with
    order_history := []
    status := ("ACTIVE")
    time := 1
    position := some 0
    cost := some 10
    vwap_m := none }

/-- C9 witness: a first poll reporting ACTIVE at tick 1 with
`start_time = 0` releases the loop, and the exit conditions of the amended
statement hold there. -/
theorem reset_exits_only_off_loop_condition_witness :
    (("ACTIVE") : String) ≠ ("STOPPED") ∧ |(1 : Int) - (0 : Int)| ≤ 1 := by
  have hreset : reset (st_c4 0)
      ⟨some (("ACTIVE"), 1, 300), [], some (0, some 10), none, none⟩ =
      some (stw9, get_state stw9 none) := by
    simp +decide [reset, get_tick_status, sync_loop, sync_cond, get_position,
      get_pending, calc_vwap, get_state, st_c4, stw9]
  have h := reset_exits_only_off_loop_condition (st_c4 0)
    ⟨some (("ACTIVE"), 1, 300), [], some (0, some 10), none, none⟩
    stw9 (get_state stw9 none) hreset
  exact ⟨h.1, h.2 rfl⟩

/-- C3 counterexample: with the exchange unreachable during the MARKET
re-fetch, `_get_position` returns the `(None, None)` sentinel and the
market-order sizing `abs(inventory - position)` raises a TypeError, so
`step` is not total over degraded gateway responses. -/
theorem step_raises_on_position_sentinel :
    step st_c8 (1, 0, 5)
      ⟨some (("ACTIVE"), 5, 300), fun _ => none, some (0, some 10),
        ⟨none, none, none⟩, some (0, some 10), none, some [⟨0, 9, 1⟩]⟩ =
      Except.error () ∧
    get_position none = (none, none) := by
  constructor
  · simp +decide [step, step_pre, delayed_fill, delayed_fill_orders,
      get_tick_status, get_position, execute_trade, cancel_orders,
      cancel_history, get_pending, st_c8]
  · rfl

/-- C3 amended: every gateway helper degrades to a within-type sentinel on
a non-ok response, and the reward policy returns 0 on a `None` execution
price; but `step` is not total over those sentinels: market-order sizing
raises on the `None` position sentinel, and reward arithmetic raises when
the market VWAP is `None` while the execution price is numeric. -/
theorem gateway_sentinels_and_step_partiality :
    get_tick_status none = (("PAUSED"), 0, 300) ∧
    get_position none = (none, none) ∧
    get_order none = (none, none, none) ∧
    post_order none = ⟨("failed"), -1, -1, some (-1), -1⟩ ∧
    (∀ tid : String, get_pending tid none = 0) ∧
    (∀ start : Int, calc_vwap start none = none) ∧
    (∀ (sig : RewardSignal) (d : ℚ) (start : Int) (tape : Option (List Trade))
        (q p : ℚ) (done : Bool),
        calc_reward sig d start tape q none p done = Except.ok 0) ∧
    calc_reward sig_ht 1 0 none 10 (some 5) 1 false = Except.error () ∧
    (execute_trade st_c8 (1, 0, 5) none ⟨none, none, none⟩).2 =
      Except.error () := by
  refine ⟨rfl, rfl, rfl, rfl, fun tid => rfl, fun start => rfl,
    fun sig d start tape q p done => by simp [calc_reward], ?_, ?_⟩
  · simp +decide [calc_reward, calc_vwap, sig_ht]
  · simp +decide [execute_trade, cancel_orders, cancel_history, get_pending,
      get_position, st_c8]

/-- `_delayed_fill` only rewrites the ledger, the deferred reward and
position/cost: the clock, episode window, inventory target, direction and
reward configuration pass through unchanged. -/
theorem delayed_fill_fields (st : EnvState) (tape : Option (List Trade))
    (poll : Int → Option (ℚ × Option ℚ × String))
    (posResp : Option (ℚ × Option ℚ)) (st1 : EnvState)
    (h : delayed_fill st tape poll posResp = Except.ok st1) :
    st1.time = st.time ∧ st1.end_time = st.end_time ∧
    st1.start_time = st.start_time ∧ st1.inventory = st.inventory ∧
    st1.direction = st.direction ∧ st1.reward_signal = st.reward_signal ∧
    st1.status = st.status ∧ st1.trader_id = st.trader_id := by
  unfold delayed_fill at h
  split at h
  · exact absurd h (by simp)
  · simp only [Except.ok.injEq] at h
    rw [← h]
    exact ⟨rfl, rfl, rfl, rfl, rfl, rfl, rfl, rfl⟩

/-- The tail of a dispatch never touches the clock, episode window,
inventory target, direction or reward configuration. -/
theorem finish_trade_fields (st : EnvState) (price q : ℚ) (d : PostResp)
    (tape : Option (List Trade)) (st3 : EnvState) (r : ℚ)
    (h : finish_trade st price q d tape = Except.ok (st3, r)) :
    st3.time = st.time ∧ st3.end_time = st.end_time ∧
    st3.start_time = st.start_time ∧ st3.inventory = st.inventory ∧
    st3.direction = st.direction ∧ st3.reward_signal = st.reward_signal ∧
    st3.status = st.status ∧ st3.trader_id = st.trader_id := by
  unfold finish_trade at h
  split at h
  · simp only [Except.ok.injEq, Prod.mk.injEq] at h
    rw [← h.1]
    exact ⟨rfl, rfl, rfl, rfl, rfl, rfl, rfl, rfl⟩
  · rcases hcr : calc_reward st.reward_signal st.direction st.start_time tape
        (price * q) d.vwap 1 false with e | rr
    · rw [hcr] at h
      simp at h
    · rw [hcr] at h
      simp only [Except.ok.injEq, Prod.mk.injEq] at h
      rw [← h.1]
      exact ⟨rfl, rfl, rfl, rfl, rfl, rfl, rfl, rfl⟩

/-- `_execute_trade` never touches the clock, episode window, inventory
target, direction or reward configuration. -/
theorem execute_trade_fields (st : EnvState) (a : Int × ℚ × ℚ)
    (tape : Option (List Trade)) (orc : TradeOracle) (st3 : EnvState) (r : ℚ)
    (h : (execute_trade st a tape orc).2 = Except.ok (st3, r)) :
    st3.time = st.time ∧ st3.end_time = st.end_time ∧
    st3.start_time = st.start_time ∧ st3.inventory = st.inventory ∧
    st3.direction = st.direction ∧ st3.reward_signal = st.reward_signal := by
  by_cases hq : a.2.2 = 0
  · simp +decide [execute_trade, hq] at h
    rw [← h.1]
    exact ⟨rfl, rfl, rfl, rfl, rfl, rfl⟩
  · by_cases h0 : a.1 = 0
    · simp +decide [execute_trade, hq, h0] at h
      have hf := finish_trade_fields _ _ _ _ _ _ _ h
      exact ⟨hf.1, hf.2.1, hf.2.2.1, hf.2.2.2.1, hf.2.2.2.2.1,
        hf.2.2.2.2.2.1⟩
    · by_cases h1 : a.1 = 1
      · simp +decide [execute_trade, hq, h0, h1] at h
        rcases hpc : (get_position orc.posResp).1 with _ | p
        · rw [hpc] at h
          simp at h
        · rw [hpc] at h
          simp only [] at h
          have hf := finish_trade_fields _ _ _ _ _ _ _ h
          simp only [cancel_orders] at hf
          exact ⟨hf.1, hf.2.1, hf.2.2.1, hf.2.2.2.1, hf.2.2.2.2.1,
            hf.2.2.2.2.2.1⟩
      · by_cases h2 : a.1 = 2
        · simp +decide [execute_trade, hq, h0, h1, h2] at h
          rw [← h.1]
          exact ⟨rfl, rfl, rfl, rfl, rfl, rfl⟩
        · simp +decide [execute_trade, hq, h0, h1, h2, cancel_orders] at h
          rw [← h.1]
          exact ⟨rfl, rfl, rfl, rfl, rfl, rfl⟩

/-- The pre-terminal phase of `step` carries the refreshed tick into the
state it returns and leaves the episode window, inventory target,
direction and reward configuration untouched. -/
theorem step_pre_fields (st : EnvState) (a : Int × ℚ × ℚ) (orc : StepOracle)
    (st4 : EnvState) (r0 : ℚ)
    (hpre : step_pre st a orc = Except.ok (st4, r0)) :
    st4.time = (get_tick_status orc.tickResp).2.1 ∧
    st4.end_time = st.end_time ∧ st4.start_time = st.start_time ∧
    st4.inventory = st.inventory ∧ st4.direction = st.direction ∧
    st4.reward_signal = st.reward_signal := by
  simp only [step_pre] at hpre
  split at hpre
  · exact absurd hpre (by simp)
  next st1 hdf =>
    have hdff := delayed_fill_fields _ _ _ _ _ hdf
    split at hpre
    · exact absurd hpre (by simp)
    next sr het =>
      have hetf := execute_trade_fields _ _ _ _ _ _ het
      simp only [Except.ok.injEq, Prod.mk.injEq] at hpre
      rw [← hpre.1]
      exact ⟨hetf.1.trans hdff.1, hetf.2.1.trans hdff.2.1,
        hetf.2.2.1.trans hdff.2.2.1, hetf.2.2.2.1.trans hdff.2.2.2.1,
        hetf.2.2.2.2.1.trans hdff.2.2.2.2.1,
        hetf.2.2.2.2.2.trans hdff.2.2.2.2.2.1⟩

/-- C1 amended: whenever the pre-terminal phase of `step` succeeds and the
refreshed tick has reached `end_time`, `step` reports `done = true` and
adds exactly the terminal term
`_calc_reward(inventory, cost, portion=1, done=True)` to the pre-terminal
reward; the tick and window in that test are the refreshed ones.  However,
under the `harvested`/`VWAP_TARGET` configuration the terminal-mode reward
is identically 0, so this configuration receives no nonzero terminal
comparison. -/
theorem step_terminal_structure (st : EnvState) (a : Int × ℚ × ℚ)
    (orc : StepOracle) (st4 : EnvState) (r0 : ℚ)
    (hpre : step_pre st a orc = Except.ok (st4, r0))
    (hterm : st4.end_time ≤ st4.time) :
    (st4.time = (get_tick_status orc.tickResp).2.1 ∧
      st4.end_time = st.end_time) ∧
    step st a orc = (calc_reward st4.reward_signal st4.direction
        st4.start_time orc.tape st4.inventory st4.cost 1 true).map
      (fun t => (st4, get_state st4 orc.tape, r0 + t, true,
        done_info st4)) ∧
    (∀ (d : ℚ) (s : Int) (tp : Option (List Trade)) (q : ℚ)
        (ve : Option ℚ) (p : ℚ),
      calc_reward sig_ht d s tp q ve p true = Except.ok 0) := by
  have hf := step_pre_fields st a orc st4 r0 hpre
  refine ⟨⟨hf.1, hf.2.1⟩, ?_, ?_⟩
  · rcases hcr : calc_reward st4.reward_signal st4.direction st4.start_time
        orc.tape st4.inventory st4.cost 1 true with e | t
    · simp [step, hpre, hterm, hcr, Except.map]
    · simp [step, hpre, hterm, hcr, Except.map]
  · intro d s tp q ve p
    rcases ve with _ | v
    · simp [calc_reward]
    · simp +decide [calc_reward, sig_ht]

/-- The trader state of the C1 counterexample: default
`harvested`/`VWAP_TARGET` configuration, inventory target 100, position
acquisition cost 10, empty ledger, episode ending at tick 10. -/
def st_c1 : EnvState :=
  { status := ("ACTIVE")
    time := 0
    start_time := 0
    end_time := 10
    inventory := 100
    direction := 1
    position := some 0
    cost := some 10
    vwap_m := some 9
    pending := 0
    trader_id := ("T")
    order_history := []
    delayed_reward := 0
    reward_signal := sig_ht }

/-- Oracle for the C1 run: the exchange reports tick 10 (= `end_time`),
market VWAP 9, position 0 with acquisition cost 10. -/
def orc_c1 : StepOracle :=
  { tickResp := some (("ACTIVE"), 10, 300)
    poll := fun _ => none
    posRespFill := some (0, some 10)
    trade := ⟨some (0, some 10), none, none⟩
    posRespAfter := some (0, some 10)
    pendingResp := none
    tape := some [⟨0, 9, 1⟩] }

/-- C1 counterexample: at termination under `harvested`/`VWAP_TARGET`,
`step` does return `done = true` with the terminal term computed from
(inventory, cost, portion 1, terminal), but that term — and here the
whole step reward — is 0 even though cost 10 differs from market VWAP 9,
so the terminal term is not a nonzero-computable comparison under this
configuration. -/
theorem step_terminal_reward_zero_under_vwap_target :
    step_done (step st_c1 (2, 0, 0) orc_c1) = some true ∧
    step_reward (step st_c1 (2, 0, 0) orc_c1) = some 0 ∧
    st_c1.reward_signal = sig_ht ∧
    calc_reward sig_ht 1 0 (some [⟨0, 9, 1⟩]) 100 (some 10) 1 true =
      Except.ok 0 ∧
    (100 : ℚ) * (10 - 9) * 1 ≠ 0 := by
  refine ⟨?_, ?_, rfl, by simp +decide [calc_reward, sig_ht], by norm_num⟩
  · simp +decide [step, step_pre, delayed_fill, delayed_fill_orders,
      get_position, get_pending, get_tick_status, execute_trade, calc_reward,
      calc_vwap, get_state, done_info, step_done, step_reward, cancel_orders,
      finish_trade, post_order, delayed_helper, get_order, st_c1, orc_c1,
      sig_ht]
  · simp +decide [step, step_pre, delayed_fill, delayed_fill_orders,
      get_position, get_pending, get_tick_status, execute_trade, calc_reward,
      calc_vwap, get_state, done_info, step_done, step_reward, cancel_orders,
      finish_trade, post_order, delayed_helper, get_order, st_c1, orc_c1,
      sig_ht]

/-- The state the pre-terminal phase produces in the C1 witness run. -/
def st4_c1 : EnvState :=
  { st_c1 with
    status := ("ACTIVE")
    time := 10
    position := some 0
    cost := some 10
    vwap_m := some 9
    pending := 0 }

/-- C1 witness: the amended terminal structure instantiated on the C1
run: the step result is exactly the terminal-term-mapped pre-terminal
result. -/
theorem step_terminal_structure_witness :
    step st_c1 (2, 0, 0) orc_c1 =
      (calc_reward st4_c1.reward_signal st4_c1.direction st4_c1.start_time
          orc_c1.tape st4_c1.inventory st4_c1.cost 1 true).map
        (fun t => (st4_c1, get_state st4_c1 orc_c1.tape, 0 + t, true,
          done_info st4_c1)) := by
  have hpre : step_pre st_c1 (2, 0, 0) orc_c1 = Except.ok (st4_c1, 0) := by
    simp +decide [step_pre, delayed_fill, delayed_fill_orders, get_position,
      get_pending, get_tick_status, execute_trade, calc_vwap, st_c1, orc_c1,
      st4_c1, sig_ht]
  exact (step_terminal_structure st_c1 (2, 0, 0) orc_c1 st4_c1 0 hpre
    (by norm_num [st4_c1, st_c1])).2.1
